import Mathlib

set_option maxRecDepth 100000
set_option maxHeartbeats 1000000

/-!
Verification development for the `whatgif` GIF encoder.

The definitions below are a shallow embedding of the Python sources
(`whatgif/util.py`, `whatgif/lzw.py`, `whatgif/classes.py`, `whatgif/core.py`):

* bytes and bit buffers are `List Nat` (every element is a value `0..255`,
  resp. a bit `0/1`);
* Python `dict` / `OrderedDict` / `set` become insertion-ordered association
  lists, with lookup, overwrite-or-append insertion and insert-if-absent
  matching the dict/set semantics used by the source;
* fallible operations (`raise`, `StopIteration`, `KeyError`, unbound locals)
  return `Option`/`Except`;
* bounded `while` loops and recursions on shrinking numbers are written with
  an explicit fuel argument together with a comment arguing the fuel is
  always sufficient, so that every definition is structurally recursive and
  evaluates inside the kernel.
-/

/-! ## Bit and byte utilities (`whatgif/util.py`) -/

/-- Fuelled helper for `bitLen`.  The fuel strictly bounds the number of
halvings; since `n / 2 < n` for `n ≥ 1`, fuel `n` is always enough for
argument `n`. -/
def bitLenF : Nat → Nat → Nat
  | 0, _ => 0
  | f + 1, n => if n = 0 then 0 else bitLenF f (n / 2) + 1

/-- Python `int.bit_length()`: number of binary digits of `n`, with
`bitLen 0 = 0`. -/
def bitLen (n : Nat) : Nat := bitLenF n n

/-- Fuelled helper for `natBits`; fuel `n` suffices for argument `n`
(the argument halves each step). -/
def natBitsF : Nat → Nat → List Nat
  | 0, _ => []
  | f + 1, n => if n = 0 then [] else n % 2 :: natBitsF f (n / 2)

/-- The binary digits of `n`, least-significant first, without leading
zeros (empty for `0`).  This is the `while n: buffer.append(n % 2); n //= 2`
loop of `BitStream.append`. -/
def natBits (n : Nat) : List Nat := natBitsF n n

/-- The `util.join_bits`: folds a big-endian bit sequence into one integer with
`reduce(lambda acc, bit: (acc << 1) | int(bit), byteseq)`.  Python `reduce`
without initializer starts from the head element; it raises on an empty
sequence, which never happens at the (guarded) call sites, so the `[]` case
is mapped to `0`. -/
def joinBits (l : List Nat) : Nat :=
  match l with
  | [] => 0
  | b :: rest => rest.foldl (fun acc bit => (acc <<< 1) ||| bit) b

/-- The `util.is_po2`: `not (n & (n - 1))`.  Note that in both Python and `Nat`
arithmetic this returns `true` for `n = 0` (`0 & -1 = 0`, resp.
`0 &&& (0 - 1) = 0`). -/
def isPo2 (n : Nat) : Bool := n &&& (n - 1) == 0

/-- The `util.next_po2`: least power of two `≥ n` (per its docstring), written
exactly as in the source: `1` for `0`, `n` itself when `n` is a power of
two, else `1 << (n - 1).bit_length()`. -/
def nextPo2 (n : Nat) : Nat :=
  if n = 0 then 1
  else if isPo2 n then n
  else 1 <<< bitLen (n - 1)

/-- The `util.to_bin`: the binary-number string of `n`, zero-filled to width
`pad`, as a big-endian digit list.  `bin(0)[2:]` is `"0"`, hence the
special case. -/
def toBin (n pad : Nat) : List Nat :=
  let b := if n = 0 then [0] else (natBits n).reverse
  List.replicate (pad - b.length) 0 ++ b

/-- The eight bits of a byte value, least-significant first.  Used to state
what a packed byte stream contains and by the reference LZW decoder. -/
def byteBits (m : Nat) : List Nat :=
  [m % 2, m / 2 % 2, m / 4 % 2, m / 8 % 2,
   m / 16 % 2, m / 32 % 2, m / 64 % 2, m / 128 % 2]

/-- All bits of a byte sequence, least-significant bit of each byte first,
bytes in order — the bit order of the GIF LZW data stream. -/
def bytesToBits (bytes : List Nat) : List Nat := (bytes.map byteBits).flatten

/-! ## `lzw.BitStream` -/

/-- The `lzw.BitStream`: a bit buffer (`_buffer`, list of `0/1`) plus the bytes
already packed (`_out`). -/
structure BitStream where
  buffer : List Nat
  out : List Nat
deriving DecidableEq, Repr

/-- The `BitStream.__init__`: empty buffer, empty output. -/
def BitStream.empty : BitStream := ⟨[], []⟩

/-- The `BitStream._consume_byte`: packs `buffer[7::-1]` (the first at most
eight buffered bits, reversed to big-endian) into one byte via `join_bits`
and deletes them with `del buffer[:8]`. -/
def BitStream.consumeByte (s : BitStream) : BitStream :=
  { out := s.out ++ [joinBits (s.buffer.take 8).reverse]
    buffer := s.buffer.drop 8 }

/-- The `BitStream.append(n, code_size)`: pushes the bits of `n`
least-significant first, pads with `code_size - n.bit_length()` zero bits,
then consumes at most ONE byte if at least eight bits are buffered.  (The
source uses `if`, not `while`; this single-byte drain is what claims C1 and
C3 exercise.) -/
def BitStream.append (s : BitStream) (n w : Nat) : BitStream :=
  let s' : BitStream :=
    { s with buffer := s.buffer ++ (natBits n ++ List.replicate (w - bitLen n) 0) }
  if 8 ≤ s'.buffer.length then s'.consumeByte else s'

/-- The `BitStream.__bytes__`: if any bits remain buffered, consume one (and
only one) more byte, then return the output bytes. -/
def BitStream.toBytes (s : BitStream) : List Nat :=
  if s.buffer.isEmpty then s.out else s.consumeByte.out

/-! ## `lzw.CodeTable` -/

/-- Model of Python `dict.__setitem__` on an association list: the new
binding is prepended and `dictGet`/membership take the FIRST match, so a
later binding shadows an earlier one exactly as an overwrite would.  The
source only ever reads `_d` through `in` (key membership) and
`__getitem__` (latest value) and never iterates it, and for those two
observations this prepend model agrees with a Python dict. -/
def dictSet (d : List (List Nat × Nat)) (k : List Nat) (v : Nat) :
    List (List Nat × Nat) :=
  (k, v) :: d

/-- Lookup of the most recent binding: Python `dict.__getitem__`, with
`none` for a `KeyError`. -/
def dictGet (d : List (List Nat × Nat)) (k : List Nat) : Option Nat :=
  (d.find? (fun kv => kv.1 == k)).map (fun kv => kv.2)

/-- Model of Python `set.add` on a list of `_codes_used` values: the value
is prepended; the list is read only through `in` (membership), for which
this multiset model agrees with a Python set. -/
def usedAdd (s : List Nat) (v : Nat) : List Nat :=
  v :: s

/-- The `while self._cur_code in self._codes_used: self._cur_code += 1`
scan of `CodeTable.add`.  A run of `k` consecutive members needs `k`
distinct list elements, so fuel `used.length + 1` always reaches the first
free code. -/
def advance : Nat → Nat → List Nat → Nat
  | 0, cur, _ => cur
  | f + 1, cur, used => if used.contains cur then advance f (cur + 1) used else cur

/-- The `lzw.CodeTable` state: the dictionary `_d`, the widths and reserved
codes fixed by `__init__`, the code-assignment cursor `_cur_code`, the
`_codes_used` set and the output `BitStream`.  `MAX_CODE_SIZE` is the
literal `12` below. -/
structure CodeTable where
  d : List (List Nat × Nat)
  minCodeSize : Nat
  firstCodeSize : Nat
  codeSize : Nat
  maxCode : Nat
  clearCode : Nat
  eoiCode : Nat
  curCode : Nat
  codesUsed : List Nat
  out : BitStream
deriving DecidableEq, Repr

/-- The `CodeTable.__setitem__(key, value)`: records `value` in `_codes_used`;
if `value == 2 ** _code_size` then either (at the hard maximum 12) emits a
clear code at the current width and resets `_code_size` to
`_first_code_size`, or otherwise increments `_code_size`; finally stores
`key ↦ value` in `_d`.  Note the dictionary itself is stored into
unconditionally and is never emptied. -/
def CodeTable.setitem (ct : CodeTable) (k : List Nat) (v : Nat) : CodeTable :=
  let a := { ct with codesUsed := usedAdd ct.codesUsed v }
  let b :=
    if v = 2 ^ a.codeSize then
      if a.codeSize = 12 then
        { a with out := a.out.append a.clearCode a.codeSize,
                 codeSize := a.firstCodeSize }
      else { a with codeSize := a.codeSize + 1 }
    else a
  { b with d := dictSet b.d k v }

/-- The `CodeTable.clear`: emits the clear code at the current code size.  (It
does not touch `_d`, `_cur_code` or `_codes_used`.) -/
def CodeTable.clearEmit (ct : CodeTable) : CodeTable :=
  { ct with out := ct.out.append ct.clearCode ct.codeSize }

/-- The `CodeTable.eoi`: emits the end-of-information code at the current code
size. -/
def CodeTable.eoiEmit (ct : CodeTable) : CodeTable :=
  { ct with out := ct.out.append ct.eoiCode ct.codeSize }

/-- The `CodeTable.add(indices)`: assigns `_cur_code` to the key through
`__setitem__`, then advances `_cur_code` past every used code. -/
def CodeTable.add (ct : CodeTable) (k : List Nat) : CodeTable :=
  let a := ct.setitem k ct.curCode
  { a with curCode := advance (a.codesUsed.length + 1) a.curCode a.codesUsed }

/-- The `CodeTable.output(indices)`: looks the key up in `_d` (a missing key is
a Python `KeyError`, hence `Option`) and appends its code at the current
code size. -/
def CodeTable.outputCode (ct : CodeTable) (k : List Nat) : Option CodeTable :=
  (dictGet ct.d k).map (fun code => { ct with out := ct.out.append code ct.codeSize })

/-- The `CodeTable.__init__(color_table)`: as in the source, `size` is the
(possibly negative) Python int returned by `ColorTable.size()`;
`min_code_size = max(2, min(12, 1 + size))`, the reserved codes follow, and
each raw index `0 .. _cur_code - 1` is bound to itself as a singleton key
through `__setitem__` (values there never reach `2 ** _code_size`, so no
width change happens during this loop). -/
def mkCodeTable (size : Int) : CodeTable :=
  let minCS : Nat := (max 2 (min 12 (1 + size))).toNat
  let first := 1 + minCS
  let maxC := 2 ^ minCS - 1
  let clear := 1 + maxC
  let eoi := 1 + clear
  let cur := 1 + eoi
  let base : CodeTable :=
    ⟨[], minCS, first, first, maxC, clear, eoi, cur, [], BitStream.empty⟩
  (List.range cur).foldl (fun ct i => ct.setitem [i] i) base

/-! ## `lzw.compress` -/

/-- The `for k in idx_stream` loop of `lzw.compress`: greedy longest match;
returns the final code table and index buffer, or `none` if emitting a
buffer ever fails (`KeyError` on an index absent from the table). -/
def compressLoop : CodeTable → List Nat → List Nat → Option (CodeTable × List Nat)
  | ct, buf, [] => some (ct, buf)
  | ct, buf, k :: ks =>
    if ct.d.any (fun kv => kv.1 == buf ++ [k]) then
      compressLoop ct (buf ++ [k]) ks
    else
      match ct.outputCode buf with
      | none => none
      | some ct' => compressLoop (ct'.add (buf ++ [k])) [k] ks

/-- The `lzw.compress(color_indices, color_table)` with a fresh code table:
`idx_buffer = next(idx_stream),` raises `StopIteration` on an empty input
(before the leading clear code is emitted), hence `none`; otherwise emit
clear, run the greedy loop, emit the final buffer and the end code, and
finalize the bit stream. -/
def lzwCompress (size : Int) (indices : List Nat) : Option (List Nat) :=
  match indices with
  | [] => none
  | i :: rest =>
    let ct := (mkCodeTable size).clearEmit
    match compressLoop ct [i] rest with
    | none => none
    | some (ct', buf) =>
      match ct'.outputCode buf with
      | none => none
      | some ct'' => some ct''.eoiEmit.out.toBytes

/-! ## Reference GIF-LZW decoder

Claim C1 compares `lzw.compress` against "a reference GIF-LZW decoder
(clear-code/end-code semantics, matching `min_code_size`)".  The repository
contains no decoder, so the apparatus below implements the standard GIF
decoder: fixed initial dictionary of the raw indices, clear and
end-of-information codes, codes read least-significant-bit-first at a width
that starts at `min_code_size + 1` and grows exactly when the encoder's
width does (when the value the encoder has just assigned reaches
`2 ^ width`, capped at 12), and the usual "code == next free code" case for
the KwKwK pattern.  A truncated stream (bits exhausted before the end code)
is a decode error, `none`. -/

/-- Value of a little-endian bit list. -/
def bitsVal (l : List Nat) : Nat := l.foldr (fun b acc => b + 2 * acc) 0

/-- Initial decoder dictionary: every raw index maps to itself. -/
def initDict (minCS : Nat) : List (Nat × List Nat) :=
  (List.range (2 ^ minCS)).map (fun i => (i, [i]))

/-- One decoding pass over the bit list.  Arguments: fuel, dictionary,
current width, next code value the encoder assigns, previous entry,
output accumulator, remaining bits.  Every step consumes `w ≥ 3` bits, so
fuel `bits.length + 1` is always sufficient. -/
def decodeLoop (minCS : Nat) :
    Nat → List (Nat × List Nat) → Nat → Nat → Option (List Nat) →
    List Nat → List Nat → Option (List Nat)
  | 0, _, _, _, _, _, _ => none
  | fuel + 1, dict, w, next, prev, acc, bits =>
    if bits.length < w then none
    else
      let c := bitsVal (bits.take w)
      let rest := bits.drop w
      if c = 2 ^ minCS then
        decodeLoop minCS fuel (initDict minCS) (minCS + 1) (2 ^ minCS + 2) none acc rest
      else if c = 2 ^ minCS + 1 then some acc
      else
        let entry? : Option (List Nat) :=
          match (dict.find? (fun kv => kv.1 == c)).map (fun kv => kv.2) with
          | some e => some e
          | none => if c = next then prev.map (fun p => p ++ [p.headD 0]) else none
        match entry? with
        | none => none
        | some e =>
          let step :=
            match prev with
            | some p => (dict ++ [(next, p ++ [e.headD 0])], next + 1)
            | none => (dict, next)
          let w' := if step.2 = 2 ^ w ∧ w < 12 then w + 1 else w
          decodeLoop minCS fuel step.1 w' step.2 (some e) (acc ++ e) rest

/-- Reference GIF-LZW decoder for a stream produced with the given
`min_code_size`. -/
def decompress (minCS : Nat) (bytes : List Nat) : Option (List Nat) :=
  let bits := bytesToBits bytes
  decodeLoop minCS (bits.length + 1) (initDict minCS) (minCS + 1) (2 ^ minCS + 2) none [] bits

/-! ## `classes.ColorTable` -/

/-- Python-level error kinds relevant to the color table. -/
inductive PyErr where
  | valueError
  | keyError
deriving DecidableEq, Repr

/-- The `classes.ColorTable` state: the `_ensure_transparent` flag, the ordered
mapping `_od` from RGB triple to assigned index, the insertion-order list
`_li`, and the `count()` iterator `_len` represented by the next value it
yields. -/
structure ColorTable where
  ensureTransparent : Bool
  od : List ((Nat × Nat × Nat) × Nat)
  li : List (Nat × Nat × Nat)
  lenCounter : Nat
deriving DecidableEq, Repr

/-- The `ColorTable.__init__(())`: empty table. -/
def emptyColorTable : ColorTable := ⟨false, [], [], 0⟩

/-- The `ColorTable.underlying_length`: `len(self._od)` (the source asserts
`len(_od) == len(_li)` first; reachable tables satisfy it). -/
def underlyingLength (ct : ColorTable) : Nat := ct.od.length

/-- The `ColorTable._length`: the underlying length if it is a power of two
(remember `is_po2 0` is true), else `next_po2(1 + length)`. -/
def lengthFn (ct : ColorTable) : Nat :=
  let l := underlyingLength ct
  if isPo2 l then l else nextPo2 (1 + l)

/-- The `ColorTable._size_offset`: `int(_ensure_transparent and
underlying_length() == _length())`. -/
def sizeOffset (ct : ColorTable) : Nat :=
  if ct.ensureTransparent && (underlyingLength ct == lengthFn ct) then 1 else 0

/-- The `ColorTable.size()`: `_length().bit_length() - 2 + _size_offset` as a
Python `int`, which is negative for tables of zero or one color. -/
def colorTableSize (ct : ColorTable) : Int :=
  Int.ofNat (bitLen (lengthFn ct)) - 2 + Int.ofNat (sizeOffset ct)

/-- The `ColorTable.__len__`: `int(2 ** (1 + size()))`.  A negative exponent
makes the Python expression a float below one, truncated to `0` by `int`. -/
def declaredLength (ct : ColorTable) : Nat :=
  if 1 + colorTableSize ct < 0 then 0 else 2 ^ (1 + colorTableSize ct).toNat

/-- The `ColorTable.__getitem__` on a non-negative integer index: plain list
indexing of `_li`, so `none` (an `IndexError`) from the underlying length
upward.  (The `-1 ↦ TRANSPARENT` and negative-index `ValueError` branches
concern negative arguments only and are outside the claims' scope.) -/
def colorAt (ct : ColorTable) (i : Nat) : Option (Nat × Nat × Nat) := ct.li[i]?

/-- Membership `color in table`.  `ColorTable` defines no `__contains__`,
so Python falls back to `__iter__`, which yields the explicitly inserted
colors in order and then `(0, 0, 0)` padding up to `len(self)` — hence
black is a member as soon as the declared length exceeds the underlying
length. -/
def memColorTable (ct : ColorTable) (c : Nat × Nat × Nat) : Bool :=
  ct.od.any (fun kv => kv.1 == c) ||
    (c == (0, 0, 0) && decide (underlyingLength ct < declaredLength ct))

/-- Python tuple `<=` on RGB triples (lexicographic). -/
def tripleLe (a b : Nat × Nat × Nat) : Bool :=
  decide (a.1 < b.1) ||
    (a.1 == b.1 && (decide (a.2.1 < b.2.1) ||
      (a.2.1 == b.2.1 && decide (a.2.2 ≤ b.2.2))))

/-- Python tuple `<` on RGB triples (lexicographic). -/
def tripleLt (a b : Nat × Nat × Nat) : Bool :=
  decide (a.1 < b.1) ||
    (a.1 == b.1 && (decide (a.2.1 < b.2.1) ||
      (a.2.1 == b.2.1 && decide (a.2.2 < b.2.2))))

/-- The `ColorTable.append(color)` for an RGB triple (the `TRANSPARENT`
sentinel branch merely sets the flag and is modelled by
`ensureTransparentColor` below).  The length-3 check holds by typing; the
range check is the chained tuple comparison `(0,0,0) <= color <
(256,256,256)`.  The duplicate check is `color in self` (see
`memColorTable`); on a hit the source formats an error message containing
`self[color]`, which is `_od[color]` and raises `KeyError` when the color
is only implicit padding, else the intended `ValueError`.  On success the
color receives `next(self._len)` and is appended to `_li`. -/
def appendColor (ct : ColorTable) (c : Nat × Nat × Nat) : Except PyErr ColorTable :=
  if !(tripleLe (0, 0, 0) c && tripleLt c (256, 256, 256)) then
    .error .valueError
  else if memColorTable ct c then
    (if ct.od.any (fun kv => kv.1 == c) then .error .valueError else .error .keyError)
  else
    .ok { ct with od := ct.od ++ [(c, ct.lenCounter)]
                  li := ct.li ++ [c]
                  lenCounter := ct.lenCounter + 1 }

/-- The `ColorTable.ensure_transparent_color`. -/
def ensureTransparentColor (ct : ColorTable) : ColorTable :=
  { ct with ensureTransparent := true }

/-- The `ColorTable.extend(colors)`: append each in turn, propagating the first
error. -/
def extendColors (ct : ColorTable) (cs : List (Nat × Nat × Nat)) :
    Except PyErr ColorTable :=
  cs.foldlM (fun a c => appendColor a c) ct

/-! ## `classes.TableColorField` -/

/-- Intended value of `TableColorField.__int__`: the four sub-fields as one
big-endian bit sequence — `has_global_color_table` (1 bit),
`to_bin(color_resolution, 3)`, `sort` (1 bit), `to_bin(size, 3)` — joined
by `util.join_bits`.  The source spells exactly these eight values, but
passes them as eight separate positional arguments to the one-parameter
`join_bits`, so the actual Python call raises
`TypeError: join_bits() takes 1 positional argument but 8 were given`;
this definition models the evident single-sequence intent of that call
(claim C4 records the TypeError as a code bug). -/
def tableColorFieldInt (hasTable : Bool) (res : Nat) (srt : Bool) (size : Nat) : Nat :=
  joinBits ((if hasTable then 1 else 0) :: toBin res 3 ++
    (if srt then 1 else 0) :: toBin size 3)

/-! ## `util.subblockify` and frame payload assembly -/

/-- The `for idx in range(255, len(data), 255)` loop of `util.subblockify`:
returns the accumulated `[255] ++ chunk` runs together with the last value
taken by `idx` (or `none` if the loop body never ran).  Each iteration
advances `idx` by 255, so fuel `data.length + 1` is always sufficient. -/
def sbLoopF : Nat → List Nat → Nat → List Nat × Option Nat
  | 0, _, _ => ([], none)
  | f + 1, data, idx =>
    if idx < data.length then
      let r := sbLoopF f data (idx + 255)
      ((255 :: ((data.drop (idx - 255)).take 255)) ++ r.1, some (r.2.getD idx))
    else ([], none)

/-- The `util.subblockify(data)`.  When the loop never runs — that is, when
`len(data) ≤ 255` — the local variable `idx` is never bound, and the
trailing `ba.append(len(data) if len(data) < 255 else len(data) - idx)` /
`ba.extend(data[idx:])` lines raise `UnboundLocalError` (in the `< 255`
case the `append` succeeds and the `extend` raises; at exactly 255 the
conditional itself raises).  Both are modelled by `none`. -/
def subblockify (data : List Nat) : Option (List Nat) :=
  let r := sbLoopF (data.length + 1) data 255
  match r.2 with
  | none => none
  | some idx =>
    some (r.1 ++ [if data.length < 255 then data.length else data.length - idx]
      ++ data.drop idx)

/-- Fuelled sub-block chunking as claim C5 describes it: runs of at most
255 bytes, each preceded by its length byte, terminated by a zero-length
byte.  Each step removes 255 bytes, so fuel `p.length + 1` suffices. -/
def specChunkF : Nat → List Nat → List Nat
  | 0, _ => [0]
  | f + 1, p =>
    if p.isEmpty then [0]
    else min 255 p.length :: (p.take 255 ++ specChunkF f (p.drop 255))

/-- Sub-block chunking of a payload, in the claim's words ("split into runs
of at most 255 bytes, each run preceded by its length byte, and terminated
by a zero-length byte"). -/
def specChunk (p : List Nat) : List Nat := specChunkF (p.length + 1) p

/-- The byte segment `Frame.__bytes__` appends for the compressed pixel
data (`core.py` line 159): the raw `lzw.compress` output, with no
sub-block chunking and no terminator.  (`size` is the effective color
table's `size()` value, exactly what `lzw.compress` consumes.) -/
def frameImageData (size : Int) (indices : List Nat) : Option (List Nat) :=
  lzwCompress size indices

/-! ## Concrete tables and states used by the theorems -/

deriving instance DecidableEq for Except

/-- A canonical color table holding `n` distinct colors
`(0,0,0+i)`-like triples; used to express that the size computations
depend only on the number of inserted colors. -/
def ctOfLen (n : Nat) (t : Bool) : ColorTable :=
  ⟨t, (List.range n).map (fun i => ((i, 0, 0), i)),
     (List.range n).map (fun i => (i, 0, 0)), n⟩

/-- A three-color table (no black): the result of inserting `(1,2,3)`,
`(4,5,6)`, `(7,8,9)` into a fresh table. -/
def t3 : ColorTable :=
  ⟨false, [((1, 2, 3), 0), ((4, 5, 6), 1), ((7, 8, 9), 2)],
    [(1, 2, 3), (4, 5, 6), (7, 8, 9)], 3⟩

/-- A 129-color table `(i, 0, 0)` for `i < 129`: its `size()` is 7, its
declared length 256, so `min_code_size` is 8 and LZW codes are at least
nine bits wide. -/
def t129 : ColorTable := ctOfLen 129 false

/-- The `lzw.compress(color_indices, color_table)` as `Frame.__bytes__` calls
it: the code table is built from `color_table.size()`. -/
def lzwCompressCT (ct : ColorTable) (indices : List Nat) : Option (List Nat) :=
  lzwCompress (colorTableSize ct) indices

/-- The `min_code_size` of the code table built for a color table — the width
parameter a matching reference decoder must use. -/
def minCodeSizeOf (ct : ColorTable) : Nat :=
  (max 2 (min 12 (1 + colorTableSize ct))).toNat

/-- Compress with `lzw.compress`, then decode with the reference decoder at
the matching `min_code_size`. -/
def lzwRoundtrip (ct : ColorTable) (indices : List Nat) : Option (List Nat) :=
  (lzwCompressCT ct indices).bind (decompress (minCodeSizeOf ct))

/-- A code table at the 12-bit ceiling, reached from `mkCodeTable 1`
(where `min_code_size = 2`, clear code 4, end code 5) by nine
`__setitem__` calls assigning the width-threshold values
`8, 16, …, 2048`; its `_code_size` is 12. -/
def ct12 : CodeTable :=
  (List.range 9).foldl (fun ct j => ct.setitem [1, j] (2 ^ (3 + j))) (mkCodeTable 1)

/-- Statement that `k` is the least power of two that is ≥ `m` — the
property claim C6 asserts of the declared length. -/
def IsLeastPow2GE (k m : Nat) : Prop :=
  (∃ j, k = 2 ^ j) ∧ m ≤ k ∧ ∀ k', (∃ j, k' = 2 ^ j) → m ≤ k' → k ≤ k'

/-- Arithmetic form of `declaredLength` on a table of `n` colors with
transparency flag `t` (proved to agree with the source definition in
`declaredLength_ctOfLen` below). -/
def dlArith (n : Nat) (t : Bool) : Nat :=
  let l := if isPo2 n then n else nextPo2 (1 + n)
  let off : Nat := if t && (n == l) then 1 else 0
  let size : Int := Int.ofNat (bitLen l) - 2 + Int.ofNat off
  if 1 + size < 0 then 0 else 2 ^ (1 + size).toNat

/-! ## Helper lemmas and sanity facts -/

/-- Table `t3` is reachable through the public API. -/
theorem t3_reachable :
    extendColors emptyColorTable [(1, 2, 3), (4, 5, 6), (7, 8, 9)] = .ok t3 := by
  decide

/-- Table `t129` is reachable through the public API. -/
theorem t129_reachable :
    extendColors emptyColorTable ((List.range 129).map (fun i => (i, 0, 0))) =
      .ok t129 := by
  decide

/-- The `t129` has `size()` 7, so `min_code_size` is 8 and LZW codes are nine
bits wide until the dictionary holds 512 codes. -/
theorem t129_size_field : colorTableSize t129 = 7 ∧ minCodeSizeOf t129 = 8 := by
  decide

/-- The reference decoder really is an inverse of `lzw.compress` where the
bit stream does not overflow: a small-width roundtrip succeeds. -/
theorem lzw_roundtrip_small_width_ok :
    lzwRoundtrip t3 [0, 1, 0, 2] = some [0, 1, 0, 2] := by
  decide

/-- The chunked form of a payload is strictly longer than the payload
itself (one length byte per run plus the terminator). -/
theorem specChunkF_length_gt :
    ∀ (fuel : Nat) (p : List Nat), p.length ≤ 255 * fuel →
      p.length < (specChunkF fuel p).length := by
  intro fuel
  induction fuel with
  | zero =>
    intro p hp
    have h0 : p.length = 0 := by omega
    simp [specChunkF, h0]
  | succ f ih =>
    intro p hp
    by_cases he : p.isEmpty
    · have h0 : p.length = 0 := by
        rw [List.isEmpty_iff] at he
        simp [he]
      simp [specChunkF, he, h0]
    · have hstep := ih (p.drop 255) (by simp [List.length_drop]; omega)
      simp only [specChunkF, he, if_neg, Bool.false_eq_true, not_false_iff,
        ite_false, List.length_cons, List.length_append, List.length_take,
        List.length_drop] at hstep ⊢
      omega

/-- Fuel instantiation of the previous lemma. -/
theorem specChunk_length_gt (p : List Nat) : p.length < (specChunk p).length :=
  specChunkF_length_gt (p.length + 1) p (by omega)

/-! ## Claim theorems -/

/-- Claim C9 (confirmed): `lzw.compress` on an empty index sequence fails
immediately — `next(idx_stream)` raises `StopIteration` before the leading
clear code is emitted — and produces no output at all. -/
theorem lzw_compress_empty_none : ∀ size : Int, lzwCompress size [] = none :=
  fun _ => rfl

/-- Claim C4 (code bug): the intended packing of the table-color-field with
`has_table = true`, `color_resolution = 3`, `sort = false`, `size = 5` is
the byte `0b1_011_0_101 = 0xB5`.  The actual `TableColorField.__int__`
passes the eight sub-field bits as eight positional arguments to the
one-parameter `util.join_bits` and therefore raises `TypeError` instead of
returning this value. -/
theorem tableColorField_intended_pack_value :
    tableColorFieldInt true 3 false 5 = 0xB5 := by
  decide

/-- Claim C3 (code bug): three appends of width-12 codes total 36 bits, so
a correct bit stream must finalize to ⌈36/8⌉ = 5 zero-padded bytes; the
source's `BitStream` drains at most one byte per `append` and one more at
finalization, leaving 12 bits buffered and emitting only 4 bytes — the
last 4 appended bits are dropped. -/
theorem bitStream_finalize_drops_bits :
    BitStream.toBytes (((BitStream.empty.append 0 12).append 0 12).append 0 12) =
      [0, 0, 0, 0]
    ∧ (((BitStream.empty.append 0 12).append 0 12).append 0 12).buffer.length = 12 := by
  decide

/-- Claim C1 (code bug): compressing the twenty distinct indices
`0, …, 19` of a 129-color table (declared length 256, `min_code_size` 8)
emits twenty-two nine-bit codes (198 bits) but only 23 bytes (184 bits):
the single-byte drain of `BitStream` leaves 22 bits buffered at
finalization and flushes just one more byte, so the reference decoder runs
out of bits before the end code and the roundtrip fails instead of
returning the original sequence. -/
theorem lzw_compress_roundtrip_failure :
    lzwRoundtrip t129 (List.range 20) = none := by
  decide

/-- Claim C2 (corrected, amended form): when `CodeTable.__setitem__`
assigns a value equal to `2 ** _code_size`, then below the hard maximum the
code size is incremented and nothing is emitted, while at code size 12 a
clear code is emitted at the current width and the code size is reset to
`min_code_size + 1`; in BOTH cases the dictionary still receives the new
key (it is never reset to the initial per-index entries) and `_cur_code`
is left unchanged (it is not reset to `end_code + 1`). -/
theorem codeTable_setitem_width_rule (ct : CodeTable) (k : List Nat) (v : Nat)
    (hv : v = 2 ^ ct.codeSize) :
    ((ct.codeSize ≠ 12 → (ct.setitem k v).codeSize = ct.codeSize + 1 ∧
        (ct.setitem k v).out = ct.out)
      ∧ (ct.codeSize = 12 → (ct.setitem k v).codeSize = ct.firstCodeSize ∧
        (ct.setitem k v).out = ct.out.append ct.clearCode ct.codeSize))
    ∧ (ct.setitem k v).d = dictSet ct.d k v
    ∧ (ct.setitem k v).curCode = ct.curCode := by
  by_cases h12 : ct.codeSize = 12 <;>
    simp [CodeTable.setitem, hv, h12]

/-- Claim C2, counterexample to the reset clause: in the state `ct12`
(code size 12, reached by `__setitem__` assignments of the width-threshold
values), assigning the value `4096 = 2 ** 12` does run the overflow branch
(the code size drops back to `min_code_size + 1 = 3`), yet the dictionary
still contains the extension key `[1, 0]` afterwards — it is NOT reset to
only the initial per-index entries. -/
theorem codeTable_overflow_no_reset_cex :
    (ct12.setitem [9, 9] 4096).codeSize = 3
    ∧ (ct12.setitem [9, 9] 4096).d.any (fun kv => kv.1 == [1, 0]) = true
    ∧ (ct12.setitem [9, 9] 4096).d ≠ (mkCodeTable 1).d := by
  decide

/-- Witness for `codeTable_setitem_width_rule`: both branches instantiated
— the overflow branch at `ct12` with value `4096`, and the growth branch at
a fresh `mkCodeTable 1` (code size 3) with value `8`. -/
theorem codeTable_setitem_width_rule_witness :
    ((ct12.setitem [9, 9] 4096).codeSize = ct12.firstCodeSize
      ∧ (ct12.setitem [9, 9] 4096).out = ct12.out.append ct12.clearCode ct12.codeSize
      ∧ (ct12.setitem [9, 9] 4096).d = dictSet ct12.d [9, 9] 4096
      ∧ (ct12.setitem [9, 9] 4096).curCode = ct12.curCode)
    ∧ ((mkCodeTable 1).setitem [1, 0] 8).codeSize = (mkCodeTable 1).codeSize + 1 := by
  have h := codeTable_setitem_width_rule ct12 [9, 9] 4096 (by decide)
  have h' := codeTable_setitem_width_rule (mkCodeTable 1) [1, 0] 8 (by decide)
  exact ⟨⟨(h.1.2 (by decide)).1, (h.1.2 (by decide)).2, h.2.1, h.2.2⟩,
    (h'.1.1 (by decide)).1⟩

/-- Claim C5, counterexample: for a two-color table (`size()` 0) and the
index sequence `[0, 1, 0]`, the byte segment `Frame.__bytes__` appends for
the pixel data is the raw compress output `[68, 80]`, not the sub-block
chunked `[2, 68, 80, 0]` the claim requires; the repository's own
`subblockify` cannot even produce a chunking of it (it errors on short
payloads). -/
theorem frame_payload_not_subblocked_cex :
    frameImageData 0 [0, 1, 0] = some [68, 80]
    ∧ specChunk [68, 80] = [2, 68, 80, 0]
    ∧ frameImageData 0 [0, 1, 0] ≠ some (specChunk [68, 80])
    ∧ subblockify [68, 80] = none := by
  decide

/-- Claim C5 (corrected, amended form): the frame block carries the
LZW-compressed index stream as raw bytes — `Frame.__bytes__` extends the
block with `lzw.compress(...)` directly, so whenever compression succeeds
the appended segment is the unchunked payload and never equals its
sub-block chunked form (which is strictly longer). -/
theorem frame_payload_raw_not_chunked (size : Int) (indices : List Nat)
    (p : List Nat) (h : lzwCompress size indices = some p) :
    frameImageData size indices = some p
    ∧ frameImageData size indices ≠ some (specChunk p) := by
  refine ⟨h, ?_⟩
  rw [show frameImageData size indices = lzwCompress size indices from rfl, h]
  intro hc
  have hlen := specChunk_length_gt p
  have hp : p = specChunk p := by
    simpa using hc
  rw [← hp] at hlen
  omega

/-- Witness for `frame_payload_raw_not_chunked` at the concrete frame of
`frame_payload_not_subblocked_cex`. -/
theorem frame_payload_raw_not_chunked_witness :
    frameImageData 0 [0, 1, 0] = some [68, 80]
    ∧ frameImageData 0 [0, 1, 0] ≠ some (specChunk [68, 80]) :=
  frame_payload_raw_not_chunked 0 [0, 1, 0] [68, 80] (by decide)

/-- Claim C10 (confirmed): `util.subblockify` fails with an unbound-local
error (modelled as `none`) for every payload of at most 255 bytes — the
`range(255, len(data), 255)` loop never binds `idx`, which the code after
the loop reads — and returns normally exactly for payloads strictly longer
than 255 bytes. -/
theorem subblockify_totality (data : List Nat) :
    (data.length ≤ 255 → subblockify data = none)
    ∧ (255 < data.length → ∃ r, subblockify data = some r) := by
  constructor
  · intro h
    have h255 : ¬ 255 < data.length := by omega
    simp [subblockify, sbLoopF, h255]
  · intro h
    simp only [subblockify, sbLoopF, h, if_pos]
    exact ⟨_, rfl⟩

/-- Witness for `subblockify_totality`: a 10-byte payload errors, a
300-byte payload chunks. -/
theorem subblockify_totality_witness :
    subblockify (List.replicate 10 7) = none
    ∧ ∃ r, subblockify (List.replicate 300 7) = some r :=
  ⟨(subblockify_totality (List.replicate 10 7)).1 (by decide),
   (subblockify_totality (List.replicate 300 7)).2 (by decide)⟩

/-- Extract a power-of-two witness from a bounded scan. -/
theorem pow2_of_bounded_scan (k : Nat)
    (h : (List.range 10).any (fun j => k == 2 ^ j) = true) : ∃ j, k = 2 ^ j := by
  simp only [List.any_eq_true, beq_iff_eq] at h
  obtain ⟨j, _, hj⟩ := h
  exact ⟨j, hj⟩

/-- A power of two `k` with `m ≤ k < 2m` is the least power of two that is
at least `m`. -/
theorem isLeast_of_bounds (n k : Nat)
    (hpo : (List.range 10).any (fun j => k == 2 ^ j) = true)
    (hle : n ≤ k) (hlt : k < 2 * n) : IsLeastPow2GE k n := by
  obtain ⟨j, rfl⟩ := pow2_of_bounded_scan k hpo
  refine ⟨⟨j, rfl⟩, hle, ?_⟩
  rintro k' ⟨j', rfl⟩ hm
  by_contra hcon
  push_neg at hcon
  have hjj : j' < j := by
    have h2 : (1 : ℕ) < 2 := by omega
    exact (Nat.pow_lt_pow_iff_right h2).mp hcon
  have h2le : 2 ^ (j' + 1) ≤ 2 ^ j := Nat.pow_le_pow_right (by omega) (by omega)
  rw [pow_succ] at h2le
  omega

/-- The declared length depends on a color table only through its number of
entries and the transparency flag. -/
theorem declaredLength_congr (ct ct' : ColorTable) (h : ct.od.length = ct'.od.length)
    (hf : ct.ensureTransparent = ct'.ensureTransparent) :
    declaredLength ct = declaredLength ct' := by
  simp [declaredLength, colorTableSize, sizeOffset, lengthFn, underlyingLength, h, hf]

/-- On the canonical table of `n` colors, the declared length is the
arithmetic expression `dlArith n t` — this lets the bounded checks below
evaluate numbers instead of rebuilding tables. -/
theorem declaredLength_ctOfLen (n : Nat) (t : Bool) :
    declaredLength (ctOfLen n t) = dlArith n t := by
  simp [declaredLength, colorTableSize, sizeOffset, lengthFn, underlyingLength,
    ctOfLen, dlArith]

/-- Claim C6 (corrected, amended form): for every table with `n` explicitly
inserted colors, `1 ≤ n ≤ 256`, the declared length (`__len__`) is the
least power of two `≥ max(n, 1)` when transparency is not reserved, and is
at least 2 when transparency is reserved and `n` is a power of two.  (The
claim's range `[0, 256]` had to shrink to `[1, 256]`: a fresh table with
zero colors has `size() = -2` and `int(2 ** -1) = 0`, see
`declaredLength_zero_table_cex`.) -/
theorem declaredLength_least_pow2 (ct : ColorTable)
    (h1 : 1 ≤ underlyingLength ct) (h2 : underlyingLength ct ≤ 256) :
    (ct.ensureTransparent = false →
      IsLeastPow2GE (declaredLength ct) (max (underlyingLength ct) 1))
    ∧ (ct.ensureTransparent = true → isPo2 (underlyingLength ct) = true →
      2 ≤ declaredLength ct) := by
  have hren : ∀ t, ct.ensureTransparent = t →
      declaredLength ct = declaredLength (ctOfLen (underlyingLength ct) t) := by
    intro t ht
    apply declaredLength_congr
    · simp [ctOfLen, underlyingLength]
    · simp [ctOfLen, ht]
  constructor
  · intro hf
    rw [hren false hf, declaredLength_ctOfLen]
    have hmax : max (underlyingLength ct) 1 = underlyingLength ct := by omega
    rw [hmax]
    have hall : ∀ m, m < 257 → 1 ≤ m →
        ((List.range 10).any (fun j => dlArith m false == 2 ^ j)
          && (decide (m ≤ dlArith m false)
          && decide (dlArith m false < 2 * m))) = true := by
      decide
    have h := hall (underlyingLength ct) (by omega) h1
    simp only [Bool.and_eq_true, decide_eq_true_eq] at h
    exact isLeast_of_bounds _ _ h.1 h.2.1 h.2.2
  · intro ht hpo
    rw [hren true ht, declaredLength_ctOfLen]
    have hall : ∀ m, m < 257 → 1 ≤ m → isPo2 m = true →
        2 ≤ dlArith m true := by
      decide
    exact hall _ (by omega) h1 hpo

/-- Claim C6, counterexample at `n = 0`: a fresh table with no explicit
colors has declared length `0`, which is not the least power of two
`≥ max(0, 1) = 1`. -/
theorem declaredLength_zero_table_cex :
    declaredLength emptyColorTable = 0
    ∧ ¬ IsLeastPow2GE (declaredLength emptyColorTable) (max 0 1) := by
  have h0 : declaredLength emptyColorTable = 0 := by decide
  refine ⟨h0, ?_⟩
  intro h
  have hle := h.2.1
  rw [h0] at hle
  omega

/-- Witness for `declaredLength_least_pow2`: the three-color table `t3`
(declared length 4) and a four-color table with reserved transparency
(declared length 8 ≥ 2). -/
theorem declaredLength_least_pow2_witness :
    IsLeastPow2GE (declaredLength t3) (max (underlyingLength t3) 1)
    ∧ 2 ≤ declaredLength (ctOfLen 4 true) :=
  ⟨(declaredLength_least_pow2 t3 (by decide) (by decide)).1 (by decide),
   (declaredLength_least_pow2 (ctOfLen 4 true) (by decide) (by decide)).2
     (by decide) (by decide)⟩

/-- Claim C7 (corrected, amended form): looking a non-negative index up in
a color table returns the stored color exactly when the index is below the
underlying length, and fails (an `IndexError` from `_li.__getitem__`,
modelled as `none`) for EVERY index at or above the underlying length —
including the padding range below the declared length, where the claim
expected the implicit black `(0, 0, 0)`.  `hinv` is the
`len(_od) == len(_li)` assertion of `underlying_length`, which every
reachable table satisfies. -/
theorem colorTable_getitem_spec (ct : ColorTable)
    (hinv : ct.li.length = underlyingLength ct) (i : Nat) :
    (∀ h : i < ct.li.length, colorAt ct i = some (ct.li.get ⟨i, h⟩))
    ∧ (underlyingLength ct ≤ i → colorAt ct i = none) := by
  constructor
  · intro h
    simp [colorAt, List.getElem?_eq_getElem h]
  · intro h
    have hge : ct.li.length ≤ i := by omega
    simp [colorAt, List.getElem?_eq_none hge]

/-- Claim C7, counterexample: `t3` has underlying length 3 and declared
length 4, so the claim requires index 3 to produce the implicit black
padding `(0, 0, 0)`; the code raises `IndexError` (`none`) instead. -/
theorem colorTable_padding_index_errors_cex :
    colorAt t3 3 = none
    ∧ underlyingLength t3 = 3 ∧ declaredLength t3 = 4 := by
  decide

/-- Witness for `colorTable_getitem_spec` at `t3`: a stored index resolves,
an out-of-range index errors. -/
theorem colorTable_getitem_spec_witness :
    colorAt t3 1 = some (t3.li.get ⟨1, by decide⟩) ∧ colorAt t3 7 = none :=
  ⟨(colorTable_getitem_spec t3 (by decide) 1).1 (by decide),
   (colorTable_getitem_spec t3 (by decide) 7).2 (by decide)⟩

/-- Claim C8 (corrected, amended form): inserting a valid RGB color into a
color table succeeds with the next sequential index exactly when the color
is not a member under the table's membership semantics — which, lacking
`__contains__`, iterate the PADDED table: a color is a member iff it was
explicitly inserted OR it is black `(0, 0, 0)` while the declared length
exceeds the underlying length.  On a hit the source raises: a `ValueError`
for an explicitly inserted duplicate, and a `KeyError` (from formatting the
error message via `self[color]`) for black hitting only implicit padding.
`hcnt` says the `count()` iterator agrees with the number of insertions,
as in every reachable table. -/
theorem colorTable_append_spec (ct : ColorTable) (c : Nat × Nat × Nat)
    (hv : c.1 ≤ 255 ∧ c.2.1 ≤ 255 ∧ c.2.2 ≤ 255)
    (hcnt : ct.lenCounter = underlyingLength ct) :
    (memColorTable ct c = false →
      appendColor ct c = .ok { ct with od := ct.od ++ [(c, underlyingLength ct)],
                                       li := ct.li ++ [c],
                                       lenCounter := underlyingLength ct + 1 })
    ∧ (memColorTable ct c = true → ∃ e, appendColor ct c = .error e) := by
  obtain ⟨c1, c2, c3⟩ := hv
  have hrange : (tripleLe (0, 0, 0) c && tripleLt c (256, 256, 256)) = true := by
    obtain ⟨x, y, z⟩ := c
    simp only [tripleLe, tripleLt, Bool.and_eq_true, Bool.or_eq_true,
      decide_eq_true_eq, beq_iff_eq] at *
    omega
  rw [Bool.and_eq_true] at hrange
  have h0 : tripleLe 0 c = true := hrange.1
  have h256 := hrange.2
  constructor
  · intro hmem
    simp [appendColor, h0, h256, hmem, hcnt]
  · intro hmem
    by_cases hod : ct.od.any (fun kv => kv.1 == c)
    · exact ⟨.valueError, by simp [appendColor, h0, h256, hmem, hod]⟩
    · exact ⟨.keyError, by simp [appendColor, h0, h256, hmem, hod]⟩

/-- Claim C8, counterexample: black `(0, 0, 0)` was never explicitly
inserted into `t3`, yet inserting it fails (with a `KeyError`, raised while
formatting the duplicate-color message), because the membership test
iterates the padded table and `t3` has a black padding slot. -/
theorem colorTable_append_black_padding_cex :
    appendColor t3 (0, 0, 0) = .error .keyError
    ∧ t3.od.any (fun kv => kv.1 == (0, 0, 0)) = false
    ∧ underlyingLength t3 < declaredLength t3 := by
  decide

/-- Witness for `colorTable_append_spec` at `t3`: a fresh color is accepted
with index 3, a duplicate is rejected. -/
theorem colorTable_append_spec_witness :
    appendColor t3 (9, 9, 9) =
      .ok { t3 with od := t3.od ++ [((9, 9, 9), underlyingLength t3)],
                    li := t3.li ++ [(9, 9, 9)],
                    lenCounter := underlyingLength t3 + 1 }
    ∧ ∃ e, appendColor t3 (1, 2, 3) = .error e :=
  ⟨(colorTable_append_spec t3 (9, 9, 9) (by decide) (by decide)).1 (by decide),
   (colorTable_append_spec t3 (1, 2, 3) (by decide) (by decide)).2 (by decide)⟩
